import Mathlib

/-!
Verification of the ice40 placement legality predicates
(`src/ice40/arch_place.cc` of nextpnr).

The C++ code is shallowly embedded.  Pointers to `NetInfo` become
`Option NetInfo`, where `NetInfo` carries an identity (`name`) so that
pointer comparison becomes decidable equality of the structure.  The
architecture query interface (bel types, locations, tile enumeration,
bound cells, wires, pins, package pins, global-network indices) is an
abstract record of functions, mirroring the read-only collaborator
queries the code calls.  `NPNR_ASSERT` failures are modelled as `none`
results: each embedded operation returns `Option Bool` (or `Option Int`
for the scorer), with `none` meaning the fatal assertion fired.
-/

/-- A net: an identity plus the flags read by the placement code. -/
structure NetInfo where
  name : Nat
  is_global : Bool
  is_reset : Bool
  is_enable : Bool
deriving DecidableEq

/-- The cell type tags dispatched on by `arch_place.cc`. -/
inductive TypeTag where
  | ICESTORM_LC
  | SB_IO
  | SB_GB
  | Other
deriving DecidableEq

/-- The `lcInfo` payload of a logic cell. -/
structure LcInfo where
  dffEnable : Bool
  negClk : Bool
  cen : Option NetInfo
  clk : Option NetInfo
  sr : Option NetInfo
  inputCount : Nat
deriving DecidableEq

/-- The `ioInfo` payload of an IO cell. -/
structure IoInfo where
  lvds : Bool
  pintype : Nat
deriving DecidableEq

/-- The `gbInfo` payload of a global buffer cell. -/
structure GbInfo where
  forPadIn : Bool
deriving DecidableEq

/-- A cell: type tag, the per-type payloads, and the ports and the one
string attribute that `arch_place.cc` reads.  `pllDual` abstracts the
external helper `is_sb_pll40_dual` (defined outside this file of the
repository) as a boolean attribute of the cell. -/
structure CellInfo where
  type : TypeTag
  lcInfo : LcInfo
  ioInfo : IoInfo
  gbInfo : GbInfo
  port_GLOBAL_BUFFER_OUTPUT : Option NetInfo
  port_D_IN_0 : Option NetInfo
  port_D_IN_1 : Option NetInfo
  port_INPUT_CLK : Option NetInfo
  port_OUTPUT_CLK : Option NetInfo
  port_CLOCK_ENABLE : Option NetInfo
  attr_BEL_PAD_INPUT : String
  pllDual : Bool
deriving DecidableEq

/-- A bel location `(x, y, z)`. -/
structure Loc where
  x : Int
  y : Int
  z : Int
deriving DecidableEq

/-- Bel pin names that the placement code mentions. -/
inductive PinId where
  | D_IN_0
  | PLLOUT_A
  | PLLOUT_B
  | OtherPin
deriving DecidableEq

/-- The read-only architecture query interface used by the placement
predicates.  Bels and wires are identified by naturals.  All fields
mirror collaborator queries of the C++ `Arch` class. -/
structure Arch where
  belType : Nat → TypeTag
  belLoc : Nat → Loc
  belsByTile : Int → Int → List Nat
  boundBelCell : Nat → Option CellInfo
  belByLocation : Loc → Nat
  belPinWire : Nat → PinId → Nat
  wireBelPins : Nat → List (Nat × PinId)
  belPackagePin : Nat → String
  belName : Nat → String
  drivenGlobalNetwork : Nat → Int

/-- One increment of `locals_count` for a control net slot: 1 when the
slot holds a net that is not marked global, else 0.  Mirrors
`if (x != nullptr && !x->is_global) locals_count++;`. -/
def localSlot : Option NetInfo → Nat
  | none => 0
  | some n => if n.is_global then 0 else 1

/-- The loop of `Arch::logicCellsCompatible`, one recursive call per
cell, threading the mutable state `(dffs_exist, dffs_neg, cen, clk, sr,
locals_count)`.  `none` models the `NPNR_ASSERT` on the cell type
firing. -/
def lccGo : List CellInfo → Bool → Bool → Option NetInfo → Option NetInfo →
    Option NetInfo → Nat → Option Bool
  | [], _, _, _, _, _, locals_count => some (decide (locals_count ≤ 32))
  | cell :: rest, dffs_exist, dffs_neg, cen, clk, sr, locals_count =>
    if cell.type ≠ TypeTag.ICESTORM_LC then none
    else if cell.lcInfo.dffEnable then
      if ¬ dffs_exist then
        lccGo rest true cell.lcInfo.negClk cell.lcInfo.cen cell.lcInfo.clk
          cell.lcInfo.sr
          (locals_count + localSlot cell.lcInfo.cen + localSlot cell.lcInfo.clk +
            localSlot cell.lcInfo.sr + cell.lcInfo.inputCount)
      else
        if cen ≠ cell.lcInfo.cen then some false
        else if clk ≠ cell.lcInfo.clk then some false
        else if sr ≠ cell.lcInfo.sr then some false
        else if dffs_neg ≠ cell.lcInfo.negClk then some false
        else lccGo rest dffs_exist dffs_neg cen clk sr
          (locals_count + cell.lcInfo.inputCount)
    else lccGo rest dffs_exist dffs_neg cen clk sr
      (locals_count + cell.lcInfo.inputCount)

/-- `Arch::logicCellsCompatible`: the tile compatibility check over an
ordered collection of cells. -/
def logicCellsCompatible (cells : List CellInfo) : Option Bool :=
  lccGo cells false false none none none 0

/-- `_io_pintype_need_clk_in`: bit 0 of the pin type clear. -/
def io_pintype_need_clk_in (pin_type : Nat) : Bool :=
  pin_type &&& 0x01 = 0x00

/-- `_io_pintype_need_clk_out`: bits 4-5 both set, or any of bits 2-5
set while bits 2-3 are not the pattern 10. -/
def io_pintype_need_clk_out (pin_type : Nat) : Bool :=
  (pin_type &&& 0x30 = 0x30) ||
    (pin_type &&& 0x3c ≠ 0 && pin_type &&& 0x0c ≠ 0x08)

/-- `_io_pintype_need_clk_en`: either of the two classes above. -/
def io_pintype_need_clk_en (pin_type : Nat) : Bool :=
  io_pintype_need_clk_in pin_type || io_pintype_need_clk_out pin_type

/-- The `use` array of the shared-net conflict loop: need flags of the
cell and of the complement cell, interleaved per class. -/
def ioUse (cell compCell : CellInfo) : Nat → Bool
  | 0 => io_pintype_need_clk_in cell.ioInfo.pintype
  | 1 => io_pintype_need_clk_in compCell.ioInfo.pintype
  | 2 => io_pintype_need_clk_out cell.ioInfo.pintype
  | 3 => io_pintype_need_clk_out compCell.ioInfo.pintype
  | 4 => io_pintype_need_clk_en cell.ioInfo.pintype
  | 5 => io_pintype_need_clk_en compCell.ioInfo.pintype
  | _ => false

/-- The `nets` array of the shared-net conflict loop. -/
def ioNets (cell compCell : CellInfo) : Nat → Option NetInfo
  | 0 => cell.port_INPUT_CLK
  | 1 => compCell.port_INPUT_CLK
  | 2 => cell.port_OUTPUT_CLK
  | 3 => compCell.port_OUTPUT_CLK
  | 4 => cell.port_CLOCK_ENABLE
  | 5 => compCell.port_CLOCK_ENABLE
  | _ => none

/-- The shared-net conflict loop over the six slots: slot `i` conflicts
with its partner slot `i ^^^ 1` when `i` is needed, the two nets
differ, and the partner side is needed or non-null. -/
def ioConflict (cell compCell : CellInfo) : Bool :=
  [0, 1, 2, 3, 4, 5].any fun i =>
    ioUse cell compCell i &&
      decide (ioNets cell compCell i ≠ ioNets cell compCell (i ^^^ 1)) &&
      (ioUse cell compCell (i ^^^ 1) ||
        decide (ioNets cell compCell (i ^^^ 1) ≠ none))

/-- The PLL-conflict scan at the head of the `SB_IO` branch of
`Arch::isValidBelForCell`: walk the bel pins of the wire at `D_IN_0`
up to the first PLL output pin; `some b` models an early `return b`,
`none` models falling through (no PLL output pin, or a `break`). -/
def pllScan (arch : Arch) (cell : CellInfo) (bel : Nat) : Option Bool :=
  let wire := arch.belPinWire bel PinId.D_IN_0
  match (arch.wireBelPins wire).find? (fun pin =>
      pin.2 = PinId.PLLOUT_A ∨ pin.2 = PinId.PLLOUT_B) with
  | none => none
  | some pin =>
    match arch.boundBelCell pin.1 with
    | none => none
    | some pll_cell =>
      if pin.2 = PinId.PLLOUT_B ∧ ¬ pll_cell.pllDual then none
      else if cell.port_D_IN_0 = none ∧ cell.port_D_IN_1 = none then none
      else if pll_cell.attr_BEL_PAD_INPUT = arch.belName bel then some true
      else some false

/-- `Arch::isValidBelForCell`.  `none` models a fatal assertion. -/
def isValidBelForCell (arch : Arch) (cell : CellInfo) (bel : Nat) : Option Bool :=
  if cell.type = TypeTag.ICESTORM_LC then
    if arch.belType bel ≠ TypeTag.ICESTORM_LC then none
    else
      let bel_loc := arch.belLoc bel
      let others := ((arch.belsByTile bel_loc.x bel_loc.y).filter
        (fun b => b ≠ bel)).filterMap arch.boundBelCell
      logicCellsCompatible (others ++ [cell])
  else if cell.type = TypeTag.SB_IO then
    match pllScan arch cell bel with
    | some b => some b
    | none =>
      let ioLoc := arch.belLoc bel
      let compLoc : Loc := { ioLoc with z := 1 - ioLoc.z }
      if cell.ioInfo.lvds then
        if ioLoc.z ≠ 0 then some false
        else
          match arch.boundBelCell (arch.belByLocation compLoc) with
          | some _ => some false
          | none => some (decide (arch.belPackagePin bel ≠ ""))
      else
        match arch.boundBelCell (arch.belByLocation compLoc) with
        | none => some (decide (arch.belPackagePin bel ≠ ""))
        | some compCell =>
          if compCell.ioInfo.lvds then some false
          else if ioConflict cell compCell then some false
          else some (decide (arch.belPackagePin bel ≠ ""))
  else if cell.type = TypeTag.SB_GB then
    if cell.gbInfo.forPadIn then some true
    else
      match cell.port_GLOBAL_BUFFER_OUTPUT with
      | none => none
      | some net =>
        let glb_id := arch.drivenGlobalNetwork bel
        if net.is_reset ∧ net.is_enable then some false
        else if net.is_reset then some (decide (Int.tmod glb_id 2 = 0))
        else if net.is_enable then some (decide (Int.tmod glb_id 2 = 1))
        else some true
  else some true

/-- `Arch::isBelLocationValid`. -/
def isBelLocationValid (arch : Arch) (bel : Nat) : Option Bool :=
  if arch.belType bel = TypeTag.ICESTORM_LC then
    let bel_loc := arch.belLoc bel
    logicCellsCompatible
      ((arch.belsByTile bel_loc.x bel_loc.y).filterMap arch.boundBelCell)
  else
    match arch.boundBelCell bel with
    | none => some true
    | some ci => isValidBelForCell arch ci bel

/-- `Arch::scoreBelForCell`.  `none` models the fatal assertion on the
bel type. -/
def scoreBelForCell (arch : Arch) (cell : CellInfo) (bel : Nat) : Option Int :=
  if cell.type ≠ TypeTag.ICESTORM_LC then some 0
  else if arch.belType bel ≠ TypeTag.ICESTORM_LC then none
  else if ¬ cell.lcInfo.dffEnable then some 8
  else
    let bel_loc := arch.belLoc bel
    let num_cells := ((arch.belsByTile bel_loc.x bel_loc.y).filter
      (fun b => (arch.boundBelCell b).isSome && b ≠ bel)).length
    some (8 - (num_cells : Int))

/-!  Characterisation of `logicCellsCompatible` used by the proofs. -/

/-- Sum of the `inputCount` fields of a collection of cells. -/
def inputSum (cells : List CellInfo) : Nat :=
  (cells.map (fun c => c.lcInfo.inputCount)).sum

/-- The control signature of a logic cell: the quadruple recorded from
the first DFF-using cell and matched against every later one. -/
def ctrlSig (c : CellInfo) : Option NetInfo × Option NetInfo × Option NetInfo × Bool :=
  (c.lcInfo.cen, c.lcInfo.clk, c.lcInfo.sr, c.lcInfo.negClk)

/-- How much the three control slots of a cell add to `locals_count`
when the cell is the first DFF-using cell. -/
def slotCount (c : CellInfo) : Nat :=
  localSlot c.lcInfo.cen + localSlot c.lcInfo.clk + localSlot c.lcInfo.sr

/-- Closed form of the tile check, split on the list of DFF-using
cells: no DFF cells means a pure budget check; otherwise every DFF cell
must share the control signature of the first one, and the budget adds
the slot count of that first cell. -/
def lccSpecAux (cells : List CellInfo) : List CellInfo → Option Bool
  | [] => some (decide (inputSum cells ≤ 32))
  | d :: ds =>
    if ∀ c ∈ ds, ctrlSig c = ctrlSig d then
      some (decide (inputSum cells + slotCount d ≤ 32))
    else some false

/-- Closed form of the tile check. -/
def lccSpec (cells : List CellInfo) : Option Bool :=
  lccSpecAux cells (cells.filter (fun c => c.lcInfo.dffEnable))

/-- The budget the code actually compares against 32: input counts plus
the slot count of the first DFF-using cell, if any. -/
def lccBudget (cells : List CellInfo) : Nat :=
  inputSum cells +
    (match (cells.filter (fun c => c.lcInfo.dffEnable)).head? with
     | none => 0
     | some d => slotCount d)

/-- No control-signal mismatch: all DFF-using cells of the collection
share one control signature. -/
def noMismatch (cells : List CellInfo) : Prop :=
  ∀ c ∈ cells, ∀ c' ∈ cells,
    c.lcInfo.dffEnable = true → c'.lcInfo.dffEnable = true →
      ctrlSig c = ctrlSig c'

instance (cells : List CellInfo) : Decidable (noMismatch cells) := by
  unfold noMismatch; infer_instance

/-- Modelled from the words of the spec: the distinct non-null,
non-global control nets appearing across the cells, each counted once
even when it occupies several control slots or several cells. -/
def distinctCtrlNets (cells : List CellInfo) : List NetInfo :=
  (((cells.map (fun c => [c.lcInfo.cen, c.lcInfo.clk, c.lcInfo.sr])).flatten).filterMap
    id |>.filter (fun n => ¬ n.is_global)).dedup

/-- Modelled from the words of the spec: input counts plus one per
distinct non-null non-global control net. -/
def claimBudget (cells : List CellInfo) : Nat :=
  inputSum cells + (distinctCtrlNets cells).length

/-!  Concrete fixtures used by the witnesses and counterexamples. -/

/-- A plain local net. -/
def netA : NetInfo := ⟨1, false, false, false⟩

/-- A second plain local net, distinct from `netA`. -/
def netB : NetInfo := ⟨2, false, false, false⟩

/-- A global net. -/
def netG : NetInfo := ⟨3, true, false, false⟩

/-- A net classified both reset and enable. -/
def netRE : NetInfo := ⟨4, false, true, true⟩

/-- A net classified reset only. -/
def netR : NetInfo := ⟨5, false, true, false⟩

/-- A neutral cell record to be updated per fixture. -/
def baseCell : CellInfo :=
  { type := TypeTag.Other,
    lcInfo := ⟨false, false, none, none, none, 0⟩,
    ioInfo := ⟨false, 0⟩,
    gbInfo := ⟨false⟩,
    port_GLOBAL_BUFFER_OUTPUT := none, port_D_IN_0 := none,
    port_D_IN_1 := none, port_INPUT_CLK := none, port_OUTPUT_CLK := none,
    port_CLOCK_ENABLE := none, attr_BEL_PAD_INPUT := "", pllDual := false }

/-- A logic cell with the given DFF flags, control nets and input
count. -/
def mkLc (dff neg : Bool) (cen clk sr : Option NetInfo) (ic : Nat) : CellInfo :=
  { baseCell with
    type := TypeTag.ICESTORM_LC
    lcInfo := ⟨dff, neg, cen, clk, sr, ic⟩ }

/-- DFF-using logic cell, clock `netA`, 4 inputs. -/
def lcA : CellInfo := mkLc true false none (some netA) none 4

/-- DFF-using logic cell, clock `netB`, 4 inputs. -/
def lcB : CellInfo := mkLc true false none (some netB) none 4

/-- DFF-using logic cell, clock `netA`, 20 inputs. -/
def lcC : CellInfo := mkLc true false none (some netA) none 20

/-- DFF-free logic cell with 33 inputs: over budget on its own. -/
def lcBig : CellInfo := mkLc false false none none none 33

/-- DFF-using logic cell whose `cen` and `clk` slots hold the same
non-global net, with 31 inputs. -/
def c3cell : CellInfo := mkLc true false (some netA) (some netA) none 31

/-- A non-LVDS IO cell with no clock needs. -/
def ioPlain : CellInfo := { baseCell with type := TypeTag.SB_IO }

/-- An LVDS IO cell. -/
def lvdsCell : CellInfo :=
  { baseCell with
    type := TypeTag.SB_IO
    ioInfo := ⟨true, 0⟩ }

/-- Non-LVDS IO cell needing an output clock (pintype 0x31), output
clock on `netA`, input data port in use. -/
def ioOutA : CellInfo :=
  { baseCell with
    type := TypeTag.SB_IO
    ioInfo := ⟨false, 0x31⟩
    port_OUTPUT_CLK := some netA
    port_D_IN_0 := some netA }

/-- Non-LVDS IO cell needing an output clock, output clock on `netB`. -/
def ioOutB : CellInfo :=
  { baseCell with
    type := TypeTag.SB_IO
    ioInfo := ⟨false, 0x31⟩
    port_OUTPUT_CLK := some netB }

/-- Non-LVDS IO cell needing an output clock, output clock on `netA`. -/
def ioOutC : CellInfo :=
  { baseCell with
    type := TypeTag.SB_IO
    ioInfo := ⟨false, 0x31⟩
    port_OUTPUT_CLK := some netA }

/-- A bound PLL cell whose recorded pad-input site is the bel named
`IO0`. -/
def pllCell : CellInfo := { baseCell with attr_BEL_PAD_INPUT := "IO0" }

/-- Global buffer cell, `forPadIn` set, output net reset and enable. -/
def gbPadRE : CellInfo :=
  { baseCell with
    type := TypeTag.SB_GB
    gbInfo := ⟨true⟩
    port_GLOBAL_BUFFER_OUTPUT := some netRE }

/-- Global buffer cell, `forPadIn` clear, output net reset and
enable. -/
def gbRE : CellInfo :=
  { baseCell with
    type := TypeTag.SB_GB
    gbInfo := ⟨false⟩
    port_GLOBAL_BUFFER_OUTPUT := some netRE }

/-- Global buffer cell, `forPadIn` set, output net reset only. -/
def gbPadR : CellInfo :=
  { baseCell with
    type := TypeTag.SB_GB
    gbInfo := ⟨true⟩
    port_GLOBAL_BUFFER_OUTPUT := some netR }

/-- Global buffer cell, `forPadIn` clear, output net reset only. -/
def gbR : CellInfo :=
  { baseCell with
    type := TypeTag.SB_GB
    gbInfo := ⟨false⟩
    port_GLOBAL_BUFFER_OUTPUT := some netR }

/-- A neutral architecture record to be updated per fixture. -/
def baseArch : Arch :=
  { belType := fun _ => TypeTag.Other,
    belLoc := fun _ => ⟨0, 0, 0⟩,
    belsByTile := fun _ _ => [],
    boundBelCell := fun _ => none,
    belByLocation := fun _ => 0,
    belPinWire := fun _ _ => 0,
    wireBelPins := fun _ => [],
    belPackagePin := fun _ => "",
    belName := fun _ => "",
    drivenGlobalNetwork := fun _ => 0 }

/-- Tile with two logic bels 0 and 1; bel 1 holds the over-budget cell
`lcBig`, bel 0 is unbound. -/
def c1Arch : Arch :=
  { baseArch with
    belType := fun _ => TypeTag.ICESTORM_LC
    belsByTile := fun _ _ => [0, 1]
    boundBelCell := fun b => if b = 1 then some lcBig else none }

/-- Architecture whose `D_IN_0` wire of bel 0 reaches a bound PLL
output whose recorded pad-input site names bel 0; the paired IO site
(bel 1) holds `ioOutB`. -/
def pllArch : Arch :=
  { baseArch with
    belLoc := fun b => if b = 1 then ⟨0, 0, 1⟩ else ⟨0, 0, 0⟩
    belByLocation := fun l => if l = ⟨0, 0, 1⟩ then 1 else 0
    boundBelCell := fun b =>
      if b = 0 then some ioOutA
      else if b = 1 then some ioOutB
      else if b = 2 then some pllCell else none
    belPinWire := fun _ _ => 7
    wireBelPins := fun w => if w = 7 then [(2, PinId.PLLOUT_A)] else []
    belName := fun b => if b = 0 then "IO0" else ""
    belPackagePin := fun _ => "P1" }

/-- Paired IO sites 0 and 1 with no PLL on the wire; bel 1 holds
`ioOutC`; bel 0 has a package pin. -/
def c5wArch : Arch :=
  { baseArch with
    belLoc := fun b => if b = 1 then ⟨0, 0, 1⟩ else ⟨0, 0, 0⟩
    belByLocation := fun l => if l = ⟨0, 0, 1⟩ then 1 else 0
    boundBelCell := fun b => if b = 1 then some ioOutC else none
    belPackagePin := fun _ => "P1" }

/-- IO site pair with both sites free and no package pin on bel 0. -/
def c6Arch : Arch :=
  { baseArch with
    belLoc := fun b => if b = 1 then ⟨0, 0, 1⟩ else ⟨0, 0, 0⟩
    belByLocation := fun l => if l = ⟨0, 0, 1⟩ then 1 else 0 }

/-- IO site pair where bel 0 sits at sub-index 1. -/
def c6wArch : Arch :=
  { baseArch with belLoc := fun _ => ⟨0, 0, 1⟩ }

/-- Architecture whose bel 0 drives global network 1 (odd). -/
def gbOddArch : Arch :=
  { baseArch with drivenGlobalNetwork := fun _ => 1 }

/-- Logic tile `[0, 1, 2]` with bels 1 and 2 occupied by logic
cells. -/
def c8Arch : Arch :=
  { baseArch with
    belType := fun _ => TypeTag.ICESTORM_LC
    belsByTile := fun _ _ => [0, 1, 2]
    boundBelCell := fun b =>
      if b = 1 then some lcA else if b = 2 then some lcC else none }

/-!  Helper lemmas. -/

theorem inputSum_cons (c : CellInfo) (l : List CellInfo) :
    inputSum (c :: l) = c.lcInfo.inputCount + inputSum l := by
  simp [inputSum]

/-- Cells with equal control signatures add the same slot count. -/
theorem slotCount_congr {a b : CellInfo} (h : ctrlSig a = ctrlSig b) :
    slotCount a = slotCount b := by
  have h1 : a.lcInfo.cen = b.lcInfo.cen := congrArg Prod.fst h
  have h2 : a.lcInfo.clk = b.lcInfo.clk := congrArg (fun p => p.2.1) h
  have h3 : a.lcInfo.sr = b.lcInfo.sr := congrArg (fun p => p.2.2.1) h
  rw [slotCount, slotCount, h1, h2, h3]

/-- The four sequential identity checks of the loop, folded into one
comparison of control signatures. -/
theorem lccGo_checkBlock (c : CellInfo) (neg : Bool)
    (cen clk sr : Option NetInfo) (k : Option Bool) :
    (if cen ≠ c.lcInfo.cen then some false
     else if clk ≠ c.lcInfo.clk then some false
     else if sr ≠ c.lcInfo.sr then some false
     else if neg ≠ c.lcInfo.negClk then some false
     else k) =
      if ctrlSig c = (cen, clk, sr, neg) then k else some false := by
  by_cases hsig : ctrlSig c = (cen, clk, sr, neg)
  · have h1 : c.lcInfo.cen = cen := congrArg Prod.fst hsig
    have h2 : c.lcInfo.clk = clk := congrArg (fun p => p.2.1) hsig
    have h3 : c.lcInfo.sr = sr := congrArg (fun p => p.2.2.1) hsig
    have h4 : c.lcInfo.negClk = neg := congrArg (fun p => p.2.2.2) hsig
    rw [if_pos hsig,
      if_neg (show ¬ cen ≠ c.lcInfo.cen from fun h => h h1.symm),
      if_neg (show ¬ clk ≠ c.lcInfo.clk from fun h => h h2.symm),
      if_neg (show ¬ sr ≠ c.lcInfo.sr from fun h => h h3.symm),
      if_neg (show ¬ neg ≠ c.lcInfo.negClk from fun h => h h4.symm)]
  · rw [if_neg hsig]
    by_cases e1 : cen = c.lcInfo.cen
    · by_cases e2 : clk = c.lcInfo.clk
      · by_cases e3 : sr = c.lcInfo.sr
        · by_cases e4 : neg = c.lcInfo.negClk
          · exact absurd (by rw [ctrlSig, e1, e2, e3, e4]) hsig
          · rw [if_neg (not_not_intro e1), if_neg (not_not_intro e2),
              if_neg (not_not_intro e3), if_pos e4]
        · rw [if_neg (not_not_intro e1), if_neg (not_not_intro e2), if_pos e3]
      · rw [if_neg (not_not_intro e1), if_pos e2]
    · rw [if_pos e1]

/-- Post phase of the tile-check loop: once a first DFF-using cell has
been recorded, the loop succeeds on the remaining budget iff every
remaining DFF-using cell matches the recorded signature. -/
theorem lccGo_post (cells : List CellInfo)
    (hlc : ∀ c ∈ cells, c.type = TypeTag.ICESTORM_LC)
    (neg : Bool) (cen clk sr : Option NetInfo) (n : Nat) :
    lccGo cells true neg cen clk sr n =
      if ∀ c ∈ cells, c.lcInfo.dffEnable = true → ctrlSig c = (cen, clk, sr, neg) then
        some (decide (n + inputSum cells ≤ 32))
      else some false := by
  induction cells generalizing n with
  | nil => simp [lccGo, inputSum]
  | cons c rest ih =>
    have hc : c.type = TypeTag.ICESTORM_LC := hlc c (by simp)
    have hrest : ∀ x ∈ rest, x.type = TypeTag.ICESTORM_LC :=
      fun x hx => hlc x (List.mem_cons_of_mem _ hx)
    by_cases hdff : c.lcInfo.dffEnable = true
    · rw [show lccGo (c :: rest) true neg cen clk sr n =
          (if cen ≠ c.lcInfo.cen then some false
           else if clk ≠ c.lcInfo.clk then some false
           else if sr ≠ c.lcInfo.sr then some false
           else if neg ≠ c.lcInfo.negClk then some false
           else lccGo rest true neg cen clk sr (n + c.lcInfo.inputCount)) by
        simp [lccGo, hc, hdff]]
      rw [lccGo_checkBlock]
      by_cases hsig : ctrlSig c = (cen, clk, sr, neg)
      · rw [if_pos hsig, ih hrest]
        simp only [List.forall_mem_cons, hdff, hsig, forall_true_left, true_and,
          inputSum_cons, ← Nat.add_assoc]
      · rw [if_neg hsig, if_neg]
        intro hall
        exact hsig ((List.forall_mem_cons.mp hall).1 hdff)
    · rw [show lccGo (c :: rest) true neg cen clk sr n =
          lccGo rest true neg cen clk sr (n + c.lcInfo.inputCount) by
        simp [lccGo, hc, hdff]]
      rw [ih hrest]
      simp only [List.forall_mem_cons, hdff, Bool.false_eq_true, false_implies,
        true_and, inputSum_cons, ← Nat.add_assoc]

/-- Pre phase with no DFF-using cell anywhere: a pure budget check. -/
theorem lccGo_pre_nodff (cells : List CellInfo)
    (hlc : ∀ c ∈ cells, c.type = TypeTag.ICESTORM_LC)
    (hno : ∀ c ∈ cells, c.lcInfo.dffEnable = false) (n : Nat) :
    lccGo cells false false none none none n =
      some (decide (n + inputSum cells ≤ 32)) := by
  induction cells generalizing n with
  | nil => simp [lccGo, inputSum]
  | cons c rest ih =>
    have hc : c.type = TypeTag.ICESTORM_LC := hlc c (by simp)
    have hd : c.lcInfo.dffEnable = false := hno c (by simp)
    rw [show lccGo (c :: rest) false false none none none n =
        lccGo rest false false none none none (n + c.lcInfo.inputCount) by
      simp [lccGo, hc, hd]]
    rw [ih (fun x hx => hlc x (List.mem_cons_of_mem _ hx))
      (fun x hx => hno x (List.mem_cons_of_mem _ hx)),
      inputSum_cons, ← Nat.add_assoc]

/-- Pre phase with at least one DFF-using cell: the first one (head of
the filtered list) fixes the signature and the slot count. -/
theorem lccGo_pre_dff (cells : List CellInfo) (d : CellInfo) (ds : List CellInfo)
    (hlc : ∀ c ∈ cells, c.type = TypeTag.ICESTORM_LC)
    (hf : cells.filter (fun c => c.lcInfo.dffEnable) = d :: ds) (n : Nat) :
    lccGo cells false false none none none n =
      if ∀ c ∈ cells, c.lcInfo.dffEnable = true → ctrlSig c = ctrlSig d then
        some (decide (n + slotCount d + inputSum cells ≤ 32))
      else some false := by
  induction cells generalizing n with
  | nil => simp at hf
  | cons c rest ih =>
    have hc : c.type = TypeTag.ICESTORM_LC := hlc c (by simp)
    have hrest : ∀ x ∈ rest, x.type = TypeTag.ICESTORM_LC :=
      fun x hx => hlc x (List.mem_cons_of_mem _ hx)
    by_cases hdff : c.lcInfo.dffEnable = true
    · rw [List.filter_cons] at hf
      simp only [hdff, if_true, List.cons.injEq] at hf
      obtain ⟨rfl, _⟩ := hf
      rw [show lccGo (c :: rest) false false none none none n =
          lccGo rest true c.lcInfo.negClk c.lcInfo.cen c.lcInfo.clk c.lcInfo.sr
            (n + localSlot c.lcInfo.cen + localSlot c.lcInfo.clk +
              localSlot c.lcInfo.sr + c.lcInfo.inputCount) by
        simp [lccGo, hc, hdff]]
      rw [lccGo_post rest hrest]
      have harith : n + localSlot c.lcInfo.cen + localSlot c.lcInfo.clk +
          localSlot c.lcInfo.sr + c.lcInfo.inputCount + inputSum rest =
          n + slotCount c + inputSum (c :: rest) := by
        rw [slotCount, inputSum_cons]; omega
      rw [harith]
      have hsig : ctrlSig c =
          (c.lcInfo.cen, c.lcInfo.clk, c.lcInfo.sr, c.lcInfo.negClk) := rfl
      simp only [List.forall_mem_cons, hdff, hsig, forall_true_left, true_and]
    · rw [List.filter_cons] at hf
      simp only [hdff, if_false, Bool.false_eq_true, ite_false] at hf
      rw [show lccGo (c :: rest) false false none none none n =
          lccGo rest false false none none none (n + c.lcInfo.inputCount) by
        simp [lccGo, hc, hdff]]
      rw [ih hrest hf]
      have harith : ∀ s : Nat, n + c.lcInfo.inputCount + slotCount d + s =
          n + slotCount d + (c.lcInfo.inputCount + s) := by omega
      simp only [List.forall_mem_cons, hdff, Bool.false_eq_true, false_implies,
        true_and, inputSum_cons, harith]

/-- On all-logic collections, the tile check agrees with its closed
form. -/
theorem logicCellsCompatible_eq_lccSpec (cells : List CellInfo)
    (hlc : ∀ c ∈ cells, c.type = TypeTag.ICESTORM_LC) :
    logicCellsCompatible cells = lccSpec cells := by
  rw [logicCellsCompatible, lccSpec]
  cases hf : cells.filter (fun c => c.lcInfo.dffEnable) with
  | nil =>
    have hno : ∀ c ∈ cells, c.lcInfo.dffEnable = false := by
      intro c hcmem
      by_contra hne
      have hcf : c ∈ cells.filter (fun c => c.lcInfo.dffEnable) :=
        List.mem_filter.mpr ⟨hcmem, by simpa using hne⟩
      rw [hf] at hcf
      simp at hcf
    rw [lccGo_pre_nodff cells hlc hno 0]
    simp only [lccSpecAux, Nat.zero_add]
  | cons d ds =>
    rw [lccGo_pre_dff cells d ds hlc hf 0]
    have hiff : (∀ c ∈ cells, c.lcInfo.dffEnable = true → ctrlSig c = ctrlSig d)
        ↔ (∀ c ∈ ds, ctrlSig c = ctrlSig d) := by
      constructor
      · intro h c hcds
        have hcf : c ∈ cells.filter (fun c => c.lcInfo.dffEnable) := by
          rw [hf]; exact List.mem_cons_of_mem _ hcds
        have hm := List.mem_filter.mp hcf
        exact h c hm.1 (by simpa using hm.2)
      · intro h c hcmem hcdff
        have hcf : c ∈ cells.filter (fun c => c.lcInfo.dffEnable) :=
          List.mem_filter.mpr ⟨hcmem, by simpa using hcdff⟩
        rw [hf] at hcf
        rcases List.mem_cons.mp hcf with rfl | hmem
        · rfl
        · exact h c hmem
    have harith : 0 + slotCount d + inputSum cells =
        inputSum cells + slotCount d := by omega
    simp only [lccSpecAux, harith]
    by_cases hcond : ∀ c ∈ ds, ctrlSig c = ctrlSig d
    · rw [if_pos (hiff.mpr hcond), if_pos hcond]
    · rw [if_neg (fun h => hcond (hiff.mp h)), if_neg hcond]

/-- Transport of the all-equal-signatures condition along a permutation
of the filtered DFF lists. -/
theorem allSig_perm {d1 d2 : CellInfo} {ds1 ds2 : List CellInfo}
    (hfp : (d1 :: ds1).Perm (d2 :: ds2))
    (hA : ∀ c ∈ ds1, ctrlSig c = ctrlSig d1) :
    (∀ c ∈ ds2, ctrlSig c = ctrlSig d2) ∧ ctrlSig d2 = ctrlSig d1 := by
  have hd2 : ctrlSig d2 = ctrlSig d1 := by
    have hmem : d2 ∈ d1 :: ds1 := hfp.symm.subset (List.mem_cons_self d2 ds2)
    rcases List.mem_cons.mp hmem with rfl | hm
    · rfl
    · exact hA d2 hm
  refine ⟨?_, hd2⟩
  intro c hc
  have hcmem : c ∈ d1 :: ds1 := hfp.symm.subset (List.mem_cons_of_mem _ hc)
  rcases List.mem_cons.mp hcmem with rfl | hm
  · exact hd2.symm
  · exact (hA c hm).trans hd2.symm

/-- The closed form of the tile check is invariant under permutation of
the collection. -/
theorem lccSpec_perm {l1 l2 : List CellInfo} (hp : l1.Perm l2) :
    lccSpec l1 = lccSpec l2 := by
  have hsum : inputSum l1 = inputSum l2 := (hp.map _).sum_eq
  have hfp : (l1.filter (fun c => c.lcInfo.dffEnable)).Perm
      (l2.filter (fun c => c.lcInfo.dffEnable)) := hp.filter _
  rw [lccSpec, lccSpec]
  cases h1 : l1.filter (fun c => c.lcInfo.dffEnable) with
  | nil =>
    cases h2 : l2.filter (fun c => c.lcInfo.dffEnable) with
    | nil => simp only [lccSpecAux, hsum]
    | cons d2 ds2 =>
      rw [h1, h2] at hfp
      exact absurd hfp (by simp [List.Perm.nil_eq])
  | cons d1 ds1 =>
    cases h2 : l2.filter (fun c => c.lcInfo.dffEnable) with
    | nil =>
      rw [h1, h2] at hfp
      exact absurd hfp.symm (by simp [List.Perm.nil_eq])
    | cons d2 ds2 =>
      rw [h1, h2] at hfp
      by_cases hA1 : ∀ c ∈ ds1, ctrlSig c = ctrlSig d1
      · obtain ⟨hA2, hd21⟩ := allSig_perm hfp hA1
        simp only [lccSpecAux]
        rw [if_pos hA1, if_pos hA2, hsum, slotCount_congr hd21]
      · have hA2 : ¬ ∀ c ∈ ds2, ctrlSig c = ctrlSig d2 :=
          fun h => hA1 (allSig_perm hfp.symm h).1
        simp only [lccSpecAux]
        rw [if_neg hA1, if_neg hA2]

/-!  The claims. -/

/-- C1, counterexample: bel 0 of `c1Arch` has no bound cell, yet
`isBelLocationValid` returns false, because bel 0 is a logic bel and
its tile currently holds the over-budget cell `lcBig`. -/
theorem C1_counterexample :
    c1Arch.boundBelCell 0 = none ∧ isBelLocationValid c1Arch 0 = some false := by
  decide

/-- C1 (amended): a bel with no bound cell satisfies
`isBelLocationValid` whenever its type is not the logic type, or its
whole tile is unbound; for a bound-free logic bel in a non-empty tile
the result is instead the compatibility of the cells bound in the
tile. -/
theorem C1_theorem (arch : Arch) (bel : Nat)
    (hunbound : arch.boundBelCell bel = none)
    (hside : arch.belType bel ≠ TypeTag.ICESTORM_LC ∨
      ∀ b ∈ arch.belsByTile (arch.belLoc bel).x (arch.belLoc bel).y,
        arch.boundBelCell b = none) :
    isBelLocationValid arch bel = some true := by
  by_cases hty : arch.belType bel = TypeTag.ICESTORM_LC
  · rcases hside with hty' | htile
    · exact absurd hty hty'
    · have hnil : (arch.belsByTile (arch.belLoc bel).x
          (arch.belLoc bel).y).filterMap arch.boundBelCell = [] :=
        List.filterMap_eq_nil_iff.mpr htile
      have hstep : isBelLocationValid arch bel =
          logicCellsCompatible ((arch.belsByTile (arch.belLoc bel).x
            (arch.belLoc bel).y).filterMap arch.boundBelCell) := by
        simp only [isBelLocationValid, if_pos hty]
      rw [hstep, hnil]
      rfl
  · simp only [isBelLocationValid, if_neg hty, hunbound]

/-- C1, witness of the amended theorem at a concrete unbound non-logic
bel. -/
theorem C1_witness : isBelLocationValid baseArch 0 = some true :=
  C1_theorem baseArch 0 (by decide) (Or.inl (by decide))

/-- C2, counterexample: `gbPadRE` is a global buffer cell with
`forPadIn` set whose output net is both reset- and enable-classified,
and `isValidBelForCell` accepts it. -/
theorem C2_counterexample :
    gbPadRE.type = TypeTag.SB_GB ∧
    gbPadRE.port_GLOBAL_BUFFER_OUTPUT = some netRE ∧
    netRE.is_reset = true ∧ netRE.is_enable = true ∧
    isValidBelForCell baseArch gbPadRE 0 = some true := by
  decide

/-- C2 (amended): a global buffer cell with `forPadIn` clear whose
output net is both reset- and enable-classified is rejected on every
bel. -/
theorem C2_theorem (arch : Arch) (cell : CellInfo) (bel : Nat) (net : NetInfo)
    (hty : cell.type = TypeTag.SB_GB)
    (hpad : cell.gbInfo.forPadIn = false)
    (hport : cell.port_GLOBAL_BUFFER_OUTPUT = some net)
    (hr : net.is_reset = true) (he : net.is_enable = true) :
    isValidBelForCell arch cell bel = some false := by
  simp [isValidBelForCell, hty, hpad, hport, hr, he]

/-- C2, witness at a concrete cell and bel. -/
theorem C2_witness : isValidBelForCell baseArch gbRE 0 = some false :=
  C2_theorem baseArch gbRE 0 netRE (by decide) (by decide) (by decide)
    (by decide) (by decide)

/-- C3, counterexample: in `c3cell` the same non-global net fills both
the `cen` and the `clk` slot; the budget of the claim is 32, within
bounds and without any control mismatch, yet the code rejects, because
it counts that net once per slot. -/
theorem C3_counterexample :
    c3cell.type = TypeTag.ICESTORM_LC ∧
    noMismatch [c3cell] ∧
    claimBudget [c3cell] ≤ 32 ∧
    logicCellsCompatible [c3cell] = some false := by
  decide

/-- C3 (amended): absent a control-signal mismatch, the tile check
succeeds iff the budget is at most 32, where the budget is the sum of
the input counts plus one per control slot (cen, clk, sr) of the first
DFF-using cell holding a non-null non-global net; a net occupying two
slots is counted twice, and DFF-using cells after the first add no slot
contribution. -/
theorem C3_theorem (cells : List CellInfo)
    (hlc : ∀ c ∈ cells, c.type = TypeTag.ICESTORM_LC)
    (hnm : noMismatch cells) :
    logicCellsCompatible cells = some (decide (lccBudget cells ≤ 32)) := by
  rw [logicCellsCompatible_eq_lccSpec cells hlc, lccSpec]
  cases hf : cells.filter (fun c => c.lcInfo.dffEnable) with
  | nil => simp [lccSpecAux, lccBudget, hf]
  | cons d ds =>
    have hcond : ∀ c ∈ ds, ctrlSig c = ctrlSig d := by
      intro c hc
      have hcf := List.mem_filter.mp (hf ▸ List.mem_cons_of_mem d hc)
      have hdf := List.mem_filter.mp (hf ▸ List.mem_cons_self d ds)
      exact hnm c hcf.1 d hdf.1 (by simpa using hcf.2) (by simpa using hdf.2)
    simp only [lccSpecAux, if_pos hcond, lccBudget, hf, List.head?]

/-- C3, witness of the amended theorem at the counterexample input: the
slot-counted budget is 33, so the code rejects. -/
theorem C3_witness : logicCellsCompatible [c3cell] = some false :=
  (C3_theorem [c3cell] (by decide) (by decide)).trans (by decide)

/-- C4: when exactly two DFF-using cells are in the collection, equal
control quadruples reduce the check to the budget comparison, and any
difference rejects unconditionally. -/
theorem C4_theorem (cells : List CellInfo) (d1 d2 : CellInfo)
    (hlc : ∀ c ∈ cells, c.type = TypeTag.ICESTORM_LC)
    (hf : cells.filter (fun c => c.lcInfo.dffEnable) = [d1, d2]) :
    (ctrlSig d1 = ctrlSig d2 →
      (logicCellsCompatible cells = some true ↔
        inputSum cells + slotCount d1 ≤ 32)) ∧
    (ctrlSig d1 ≠ ctrlSig d2 → logicCellsCompatible cells = some false) := by
  rw [logicCellsCompatible_eq_lccSpec cells hlc, lccSpec, hf]
  constructor
  · intro hsig
    have hcond : ∀ c ∈ [d2], ctrlSig c = ctrlSig d1 := by
      intro c hc
      rw [List.mem_singleton] at hc
      subst hc
      exact hsig.symm
    simp only [lccSpecAux, if_pos hcond, Option.some.injEq, decide_eq_true_eq]
  · intro hsig
    have hcond : ¬ ∀ c ∈ [d2], ctrlSig c = ctrlSig d1 :=
      fun h => hsig (h d2 (List.mem_singleton_self d2)).symm
    simp only [lccSpecAux, if_neg hcond]

/-- C4, witness: two matching DFF cells with combined budget 25 are
accepted. -/
theorem C4_witness : logicCellsCompatible [lcA, lcC] = some true :=
  ((C4_theorem [lcA, lcC] lcA lcC (by decide) (by decide)).1 (by decide)).mpr
    (by decide)

/-- C5, counterexample: both paired non-LVDS IO cells need an output
clock and hold distinct output-clock nets, which the claim says is
always rejected, yet the cell is accepted, because the PLL scan
resolves the placement as the recorded pad-input site of a bound
PLL. -/
theorem C5_counterexample :
    pllArch.boundBelCell 0 = some ioOutA ∧
    pllArch.boundBelCell (pllArch.belByLocation ⟨0, 0, 1⟩) = some ioOutB ∧
    ioOutA.ioInfo.lvds = false ∧ ioOutB.ioInfo.lvds = false ∧
    io_pintype_need_clk_out ioOutA.ioInfo.pintype = true ∧
    io_pintype_need_clk_out ioOutB.ioInfo.pintype = true ∧
    ioOutA.port_OUTPUT_CLK ≠ ioOutB.port_OUTPUT_CLK ∧
    isValidBelForCell pllArch ioOutA 0 = some true := by
  decide

/-- C5 (amended): when the PLL scan falls through, a non-LVDS IO cell
whose paired site holds a bound non-LVDS cell is accepted iff no slot
of the shared-net conflict loop fires and the bel has a package pin;
in particular a conflict on any needed class (the needing side holding
a different net than a partner side that needs the class or has a net
there) rejects. -/
theorem C5_theorem (arch : Arch) (cell compCell : CellInfo) (bel : Nat)
    (hty : cell.type = TypeTag.SB_IO)
    (hpll : pllScan arch cell bel = none)
    (hlvds : cell.ioInfo.lvds = false)
    (hcomp : arch.boundBelCell (arch.belByLocation
      { arch.belLoc bel with z := 1 - (arch.belLoc bel).z }) = some compCell)
    (hclvds : compCell.ioInfo.lvds = false) :
    isValidBelForCell arch cell bel =
      some (!ioConflict cell compCell &&
        decide (arch.belPackagePin bel ≠ "")) := by
  by_cases hc : ioConflict cell compCell
  · simp [isValidBelForCell, hty, hpll, hlvds, hcomp, hclvds, hc]
  · simp [isValidBelForCell, hty, hpll, hlvds, hcomp, hclvds, hc]

/-- C5, witness: the two paired cells need an output clock on the
identical net and no other class conflicts, so the cell is accepted. -/
theorem C5_witness : isValidBelForCell c5wArch ioOutA 0 = some true :=
  (C5_theorem c5wArch ioOutA ioOutC 0 (by decide) (by decide) (by decide)
    (by decide) (by decide)).trans (by decide)

/-- C6, counterexample: an LVDS cell at sub-index 0 whose paired
sub-index-1 site is free is still rejected, because the bel has no
package pin; the claim says freeness of the pair suffices for
acceptance. -/
theorem C6_counterexample :
    lvdsCell.ioInfo.lvds = true ∧
    (c6Arch.belLoc 0).z = 0 ∧
    c6Arch.boundBelCell (c6Arch.belByLocation ⟨0, 0, 1⟩) = none ∧
    isValidBelForCell c6Arch lvdsCell 0 = some false := by
  decide

/-- C6 (amended): when the PLL scan falls through, an LVDS cell is
rejected at non-zero sub-index; at sub-index 0 it is rejected when the
paired site is occupied, and accepted on a free pair iff the bel has a
package pin. -/
theorem C6_theorem (arch : Arch) (cell : CellInfo) (bel : Nat)
    (hty : cell.type = TypeTag.SB_IO)
    (hlvds : cell.ioInfo.lvds = true)
    (hpll : pllScan arch cell bel = none) :
    ((arch.belLoc bel).z ≠ 0 → isValidBelForCell arch cell bel = some false) ∧
    ((arch.belLoc bel).z = 0 →
      (arch.boundBelCell (arch.belByLocation
        { arch.belLoc bel with z := 1 - (arch.belLoc bel).z })).isSome = true →
      isValidBelForCell arch cell bel = some false) ∧
    ((arch.belLoc bel).z = 0 →
      arch.boundBelCell (arch.belByLocation
        { arch.belLoc bel with z := 1 - (arch.belLoc bel).z }) = none →
      isValidBelForCell arch cell bel =
        some (decide (arch.belPackagePin bel ≠ ""))) := by
  refine ⟨?_, ?_, ?_⟩
  · intro hz
    simp [isValidBelForCell, hty, hpll, hlvds, hz]
  · intro hz hocc
    obtain ⟨c, hc⟩ := Option.isSome_iff_exists.mp hocc
    simp only [hz] at hc
    simp at hc
    simp [isValidBelForCell, hty, hpll, hlvds, hz, hc]
  · intro hz hfree
    simp only [hz] at hfree
    simp at hfree
    simp [isValidBelForCell, hty, hpll, hlvds, hz, hfree]

/-- C6, witness: an LVDS cell at a sub-index 1 bel is rejected. -/
theorem C6_witness : isValidBelForCell c6wArch lvdsCell 0 = some false :=
  (C6_theorem c6wArch lvdsCell 0 (by decide) (by decide) (by decide)).1
    (by decide)

/-- C7, counterexample: a global buffer cell with `forPadIn` set whose
output net is reset-classified only is accepted on a bel driving the
odd-indexed global network 1, against the even-only claim. -/
theorem C7_counterexample :
    netR.is_reset = true ∧ netR.is_enable = false ∧
    gbPadR.port_GLOBAL_BUFFER_OUTPUT = some netR ∧
    Int.tmod (gbOddArch.drivenGlobalNetwork 0) 2 = 1 ∧
    isValidBelForCell gbOddArch gbPadR 0 = some true := by
  decide

/-- C7 (amended): for a global buffer cell with `forPadIn` clear, a
reset-only net is accepted exactly on even-indexed global networks, an
enable-only net exactly on odd-indexed ones, and a net that is neither
is accepted regardless of the network index. -/
theorem C7_theorem (arch : Arch) (cell : CellInfo) (bel : Nat) (net : NetInfo)
    (hty : cell.type = TypeTag.SB_GB)
    (hpad : cell.gbInfo.forPadIn = false)
    (hport : cell.port_GLOBAL_BUFFER_OUTPUT = some net) :
    (net.is_reset = true → net.is_enable = false →
      (isValidBelForCell arch cell bel = some true ↔
        Int.tmod (arch.drivenGlobalNetwork bel) 2 = 0)) ∧
    (net.is_enable = true → net.is_reset = false →
      (isValidBelForCell arch cell bel = some true ↔
        Int.tmod (arch.drivenGlobalNetwork bel) 2 = 1)) ∧
    (net.is_reset = false → net.is_enable = false →
      isValidBelForCell arch cell bel = some true) := by
  refine ⟨?_, ?_, ?_⟩
  · intro hr he
    simp [isValidBelForCell, hty, hpad, hport, hr, he]
  · intro he hr
    simp [isValidBelForCell, hty, hpad, hport, hr, he]
  · intro hr he
    simp [isValidBelForCell, hty, hpad, hport, hr, he]

/-- C7, witness: a reset-only global buffer cell on the even network 0
is accepted. -/
theorem C7_witness : isValidBelForCell baseArch gbR 0 = some true :=
  ((C7_theorem baseArch gbR 0 netR (by decide) (by decide) (by decide)).1
    (by decide) (by decide)).mpr (by decide)

/-- C8: the desirability score is 0 for non-logic cells, the constant
8 for a logic cell without a DFF, and 8 minus the number of occupied
sites other than the bel in its tile for a DFF-using logic cell. -/
theorem C8_theorem (arch : Arch) (cell : CellInfo) (bel : Nat) :
    (cell.type ≠ TypeTag.ICESTORM_LC →
      scoreBelForCell arch cell bel = some 0) ∧
    (cell.type = TypeTag.ICESTORM_LC →
      arch.belType bel = TypeTag.ICESTORM_LC →
      cell.lcInfo.dffEnable = false →
      scoreBelForCell arch cell bel = some 8) ∧
    (cell.type = TypeTag.ICESTORM_LC →
      arch.belType bel = TypeTag.ICESTORM_LC →
      cell.lcInfo.dffEnable = true →
      scoreBelForCell arch cell bel = some (8 -
        (((arch.belsByTile (arch.belLoc bel).x (arch.belLoc bel).y).countP
          (fun b => (arch.boundBelCell b).isSome && b ≠ bel) : Nat) : Int))) := by
  refine ⟨?_, ?_, ?_⟩
  · intro hty
    simp [scoreBelForCell, hty]
  · intro hty hbel hdff
    simp [scoreBelForCell, hty, hbel, hdff]
  · intro hty hbel hdff
    simp [scoreBelForCell, hty, hbel, hdff, List.countP_eq_length_filter]

/-- C8, witness: a DFF-using logic cell in a tile with two occupied
sibling sites scores 6. -/
theorem C8_witness : scoreBelForCell c8Arch lcA 0 = some 6 :=
  ((C8_theorem c8Arch lcA 0).2.2 (by decide) (by decide) (by decide)).trans
    (by decide)

/-- C9, counterexample: the collection holds the non-logic cell
`ioPlain`, but the check returns the boolean false rather than
aborting, because the control mismatch of the two preceding DFF cells
returns before the assertion on the third cell is reached. -/
theorem C9_counterexample :
    ioPlain.type ≠ TypeTag.ICESTORM_LC ∧
    logicCellsCompatible [lcA, lcB, ioPlain] = some false := by
  decide

/-- C9 (amended): the assertions abort evaluation: the tile check on a
collection whose first cell is not a logic cell, and the logic-cell
legality predicate and the scorer against a bel whose type is not the
logic type (a non-logic cell reached later in the tile check aborts
only when no mismatch returns first). -/
theorem C9_theorem :
    (∀ (c : CellInfo) (rest : List CellInfo),
      c.type ≠ TypeTag.ICESTORM_LC →
      logicCellsCompatible (c :: rest) = none) ∧
    (∀ (arch : Arch) (cell : CellInfo) (bel : Nat),
      cell.type = TypeTag.ICESTORM_LC →
      arch.belType bel ≠ TypeTag.ICESTORM_LC →
      isValidBelForCell arch cell bel = none) ∧
    (∀ (arch : Arch) (cell : CellInfo) (bel : Nat),
      cell.type = TypeTag.ICESTORM_LC →
      arch.belType bel ≠ TypeTag.ICESTORM_LC →
      scoreBelForCell arch cell bel = none) := by
  refine ⟨?_, ?_, ?_⟩
  · intro c rest h
    simp [logicCellsCompatible, lccGo, h]
  · intro arch cell bel hty hbel
    simp [isValidBelForCell, hty, hbel]
  · intro arch cell bel hty hbel
    simp [scoreBelForCell, hty, hbel]

/-- C9, witness: a singleton collection holding one non-logic cell
aborts. -/
theorem C9_witness : logicCellsCompatible [ioPlain] = none :=
  C9_theorem.1 ioPlain [] (by decide)

/-- C10: on all-logic collections the tile check is invariant under
permutation of the collection. -/
theorem C10_theorem (l1 l2 : List CellInfo) (hp : l1.Perm l2)
    (hlc : ∀ c ∈ l1, c.type = TypeTag.ICESTORM_LC) :
    logicCellsCompatible l1 = logicCellsCompatible l2 := by
  rw [logicCellsCompatible_eq_lccSpec l1 hlc,
    logicCellsCompatible_eq_lccSpec l2 (fun c hc => hlc c (hp.symm.subset hc)),
    lccSpec_perm hp]

/-- C10, witness: swapping two concrete DFF cells leaves the result
unchanged. -/
theorem C10_witness :
    logicCellsCompatible [lcA, lcC] = logicCellsCompatible [lcC, lcA] :=
  C10_theorem [lcA, lcC] [lcC, lcA] (by decide) (by decide)
